import Mathlib

/-!
A shallow embedding of the GPU submission queue
(`src/dxvk/dxvk_queue.cpp`, class `DxvkSubmissionQueue`).

The queue state (`QueueState`) carries the two FIFOs (`m_submitQueue`,
`m_finishQueue`), the counter `m_pending`, the sticky `m_lastError` and the
`m_stopped` flag.  Each operation of the class is embedded as a pure function
from state to state; every externally visible side effect (device calls,
status-slot stores, condition-variable notifications, log lines, the
Aftermath crash-dump poll, sleeps) is recorded in an event list returned next
to the new state.  Blocking waits (`m_finishCond.wait` in `submit`,
`m_submitCond.wait` in `synchronize`) are embedded by their wait predicates:
the call returns without blocking exactly when the predicate already holds.
-/

namespace DxvkQueue

/-- The subset of `VkResult` values this code distinguishes, plus
representative failure codes a driver can return. -/
inductive VkResult where
  | VK_SUCCESS
  | VK_NOT_READY
  | VK_TIMEOUT
  | VK_ERROR_DEVICE_LOST
  | VK_ERROR_OUT_OF_DEVICE_MEMORY
  | VK_ERROR_UNKNOWN
deriving DecidableEq, Repr

/-- A command list, abstracted to an identity and the results its
`submit` and `synchronize` device calls would return. -/
structure DxvkCommandList where
  clid : Nat
  submitResult : VkResult
  syncResult : VkResult
deriving DecidableEq, Repr

/-- A presenter, abstracted to an identity and the result its
`presentImage` call would return. -/
structure DxvkPresenter where
  prid : Nat
  presentResult : VkResult
deriving DecidableEq, Repr

/-- `DxvkSubmitInfo`: the command list of a submit payload
(`none` embeds a null `cmdList` pointer). -/
structure DxvkSubmitInfo where
  cmdList : Option DxvkCommandList
deriving DecidableEq, Repr

/-- `DxvkPresentInfo`: the presenter of a present payload
(`none` embeds a null `presenter` pointer) and the frame id. -/
structure DxvkPresentInfo where
  presenter : Option DxvkPresenter
  frameId : Nat
deriving DecidableEq, Repr

/-- `DxvkSubmitEntry`: zero-initialized, then the producer fills either the
submit or the present payload.  `status` is the optional pointer to a
caller-owned `DxvkSubmitStatus` slot, embedded as a slot identifier. -/
structure DxvkSubmitEntry where
  status : Option Nat
  submit : DxvkSubmitInfo
  present : DxvkPresentInfo
deriving DecidableEq, Repr

/-- The device configuration fields read by the queue:
`presentThrottleDelay` and `enableAftermath`. -/
structure DeviceConfig where
  presentThrottleDelay : Nat
  enableAftermath : Bool
deriving DecidableEq, Repr

/-- The three condition variables, all guarded by `m_mutex`. -/
inductive CondVar where
  | appendCond
  | submitCond
  | finishCond
deriving DecidableEq, Repr

/-- Reflex latency markers surrounding a present. -/
inductive Marker where
  | presentStart
  | presentEnd
deriving DecidableEq, Repr

/-- Externally visible effects of the queue, in program order. -/
inductive QueueEvent where
  | cmdSubmit (clid : Nat)
  | presentImage (prid : Nat)
  | reflexMarker (frameId : Nat) (m : Marker)
  | throttleSleep (ms : Nat)
  | statusWrite (slot : Nat) (r : VkResult)
  | logError (r : VkResult)
  | aftermathPoll
  | waitForIdle
  | cmdSync (clid : Nat)
  | notifySignals (clid : Nat)
  | resetCmdList (clid : Nat)
  | recycleCmdList (clid : Nat)
  | notify (c : CondVar)
deriving DecidableEq, Repr

/-- The mutable state of `DxvkSubmissionQueue` that the embedded operations
touch: the pending FIFO `m_submitQueue`, the completion FIFO `m_finishQueue`,
the counter `m_pending`, the sticky `m_lastError` and the stop flag. -/
structure QueueState where
  submitQueue : List DxvkSubmitEntry
  finishQueue : List DxvkSubmitEntry
  pending : Nat
  lastError : VkResult
  stopped : Bool
deriving DecidableEq, Repr

/-- Modelled from the spec: the compile-time capacity constant
`MaxNumQueuedCommandBuffers` is declared in `dxvk_queue.h`, which is not among
the sources; the spec describes `MAX_QUEUED` as a small compile-time integer
such as 6. -/
def MaxNumQueuedCommandBuffers : Nat := 6

/-- The state of a freshly constructed queue. -/
def initialState : QueueState :=
  { submitQueue := [], finishQueue := [], pending := 0,
    lastError := VkResult.VK_SUCCESS, stopped := false }

/-- Wait predicate of the `m_finishCond.wait` in `submit`: the call stops
blocking once `m_submitQueue.size() + m_finishQueue.size()` is at most
`MaxNumQueuedCommandBuffers`.  Note it counts every entry of both FIFOs. -/
def submitWaitDone (s : QueueState) : Bool :=
  decide (s.submitQueue.length + s.finishQueue.length ≤ MaxNumQueuedCommandBuffers)

/-- The zero-initialized entry built by `submit`: only the submit payload is
filled in; `status` and the present payload stay null. -/
def mkSubmitEntry (info : DxvkSubmitInfo) : DxvkSubmitEntry :=
  { status := none, submit := info, present := { presenter := none, frameId := 0 } }

/-- `DxvkSubmissionQueue::submit`, after its backpressure wait has finished:
increments `m_pending`, pushes the entry, notifies `m_appendCond`. -/
def submit (info : DxvkSubmitInfo) (s : QueueState) : QueueState × List QueueEvent :=
  ({ s with pending := s.pending + 1,
            submitQueue := s.submitQueue ++ [mkSubmitEntry info] },
   [QueueEvent.notify CondVar.appendCond])

/-- The zero-initialized entry built by `present`: the status pointer and the
present payload are filled in; the submit payload stays null. -/
def mkPresentEntry (info : DxvkPresentInfo) (status : Option Nat) : DxvkSubmitEntry :=
  { status := status, submit := { cmdList := none }, present := info }

/-- `DxvkSubmissionQueue::present`: pushes the entry and notifies
`m_appendCond`.  The function contains no wait and does not touch
`m_pending`. -/
def present (info : DxvkPresentInfo) (status : Option Nat) (s : QueueState) :
    QueueState × List QueueEvent :=
  ({ s with submitQueue := s.submitQueue ++ [mkPresentEntry info status] },
   [QueueEvent.notify CondVar.appendCond])

/-- Wait predicate of the `m_submitCond.wait` in `synchronize`: the call
returns once `m_submitQueue` is empty. -/
def synchronizeDone (s : QueueState) : Bool :=
  s.submitQueue.isEmpty

/-- The condition variable `submit` blocks on (`m_finishCond`). -/
def submitWaitCondVar : CondVar := CondVar.finishCond

/-- The condition variable `synchronize` and `synchronizeSubmission`
block on (`m_submitCond`). -/
def synchronizeWaitCondVar : CondVar := CondVar.submitCond

/-- The dispatch phase of one submitter iteration (`submitCmdLists`), executed
with `m_mutex` released: if `m_lastError` is not `VK_ERROR_DEVICE_LOST`, take
`m_mutexQueue` and either submit the command list, or present (with reflex
markers and the optional throttle sleep); with a device-lost `m_lastError`,
skip the device entirely and short-circuit to `VK_ERROR_DEVICE_LOST`.
Returns the local `status` and the device-side events.  It takes no queue
state and returns none: the entry was read with `front()` and is still the
head of `m_submitQueue` throughout. -/
def dispatchEntry (cfg : DeviceConfig) (lastError : VkResult)
    (entry : DxvkSubmitEntry) : VkResult × List QueueEvent :=
  if lastError ≠ VkResult.VK_ERROR_DEVICE_LOST then
    match entry.submit.cmdList with
    | some c => (c.submitResult, [QueueEvent.cmdSubmit c.clid])
    | none =>
      match entry.present.presenter with
      | some p =>
          (p.presentResult,
            [QueueEvent.reflexMarker entry.present.frameId Marker.presentStart,
             QueueEvent.presentImage p.prid,
             QueueEvent.reflexMarker entry.present.frameId Marker.presentEnd]
            ++ (if cfg.presentThrottleDelay > 0 then
                  [QueueEvent.throttleSleep cfg.presentThrottleDelay] else []))
      | none => (VkResult.VK_NOT_READY, [])
  else
    (VkResult.VK_ERROR_DEVICE_LOST, [])

/-- `if (entry.status) entry.status->result = status;` -/
def statusEvents (entry : DxvkSubmitEntry) (r : VkResult) : List QueueEvent :=
  match entry.status with
  | some slot => [QueueEvent.statusWrite slot r]
  | none => []

/-- The completion phase of one submitter iteration, with `m_mutex`
re-acquired: on `VK_SUCCESS` a command-list entry moves to `m_finishQueue`;
on `VK_ERROR_DEVICE_LOST` or any failure of a command-list entry the error is
logged, `m_lastError` is made sticky, the Aftermath crash-dump poll runs when
enabled, and `m_device->waitForIdle()` is called.  In every branch the head
of `m_submitQueue` is popped and `m_submitCond` is notified. -/
def completeEntry (cfg : DeviceConfig) (status : VkResult)
    (entry : DxvkSubmitEntry) (s : QueueState) : QueueState × List QueueEvent :=
  if status = VkResult.VK_SUCCESS then
    if entry.submit.cmdList ≠ none then
      ({ s with finishQueue := s.finishQueue ++ [entry],
                submitQueue := s.submitQueue.tail },
       [QueueEvent.notify CondVar.submitCond])
    else
      ({ s with submitQueue := s.submitQueue.tail },
       [QueueEvent.notify CondVar.submitCond])
  else if status = VkResult.VK_ERROR_DEVICE_LOST ∨ entry.submit.cmdList ≠ none then
    ({ s with lastError := status, submitQueue := s.submitQueue.tail },
     [QueueEvent.logError status]
       ++ (if cfg.enableAftermath then [QueueEvent.aftermathPoll] else [])
       ++ [QueueEvent.waitForIdle, QueueEvent.notify CondVar.submitCond])
  else
    ({ s with submitQueue := s.submitQueue.tail },
     [QueueEvent.notify CondVar.submitCond])

/-- One full iteration of the submitter loop `submitCmdLists` on a non-empty
`m_submitQueue` (on an empty queue the thread is still blocked in its
`m_appendCond.wait`, so state and effects are unchanged). -/
def submitterStep (cfg : DeviceConfig) (s : QueueState) :
    QueueState × List QueueEvent :=
  match s.submitQueue with
  | [] => (s, [])
  | entry :: _ =>
    let d := dispatchEntry cfg s.lastError entry
    let c := completeEntry cfg d.1 entry s
    (c.1, d.2 ++ statusEvents entry d.1 ++ c.2)

/-- One full iteration of the finisher loop `finishCmdLists` on a non-empty
`m_finishQueue` (on an empty queue the thread is still blocked in its
`m_submitCond.wait`).  The head's `cmdList` is dereferenced unconditionally
by `notifySignals`, `reset` and `recycleCommandList`, so a null `cmdList`
is undefined behavior, embedded as `none`. -/
def finisherStep (s : QueueState) : Option (QueueState × List QueueEvent) :=
  match s.finishQueue with
  | [] => some (s, [])
  | entry :: _ =>
    match entry.submit.cmdList with
    | none => none
    | some c =>
      let sync :=
        if s.lastError ≠ VkResult.VK_ERROR_DEVICE_LOST then
          (c.syncResult, [QueueEvent.cmdSync c.clid])
        else
          (s.lastError, ([] : List QueueEvent))
      let fail :=
        if sync.1 ≠ VkResult.VK_SUCCESS then
          (sync.1, [QueueEvent.logError sync.1, QueueEvent.waitForIdle])
        else
          (s.lastError, ([] : List QueueEvent))
      some ({ s with lastError := fail.1,
                     pending := s.pending - 1,
                     finishQueue := s.finishQueue.tail },
            sync.2 ++ fail.2
              ++ [QueueEvent.notifySignals c.clid, QueueEvent.resetCmdList c.clid,
                  QueueEvent.recycleCmdList c.clid,
                  QueueEvent.notify CondVar.finishCond])

/-- `DxvkSubmissionQueue::~DxvkSubmissionQueue`, up to the thread joins:
sets `m_stopped` under the mutex, then notifies `m_appendCond` and
`m_submitCond` (and nothing else). -/
def destructorRun (s : QueueState) : QueueState × List QueueEvent :=
  ({ s with stopped := true },
   [QueueEvent.notify CondVar.appendCond, QueueEvent.notify CondVar.submitCond])

/-- Number of submit entries (non-null command list) in a FIFO. -/
def countSubmitEntries (q : List DxvkSubmitEntry) : Nat :=
  (q.filter (fun e => e.submit.cmdList.isSome)).length

/-- The spec's counter invariant: `m_pending` equals the number of submit
entries in `m_submitQueue` plus the number of entries in `m_finishQueue`. -/
def pendingInv (s : QueueState) : Prop :=
  s.pending = countSubmitEntries s.submitQueue + s.finishQueue.length

/-- Every entry of `m_finishQueue` carries a non-null command list. -/
def finishSafe (s : QueueState) : Prop :=
  ∀ e ∈ s.finishQueue, e.submit.cmdList ≠ none

/-- Events that touch the Vulkan device queue. -/
def touchesDeviceQueue (ev : QueueEvent) : Bool :=
  match ev with
  | QueueEvent.cmdSubmit _ => true
  | QueueEvent.presentImage _ => true
  | _ => false

/-- Iterated `submit` of the same payload, used for the capacity boundary. -/
def submitN (info : DxvkSubmitInfo) : Nat → QueueState → QueueState
  | 0, s => s
  | n + 1, s => (submit info (submitN info n s)).1

/-- Events the dispatch phase can emit. -/
def isDispatchEvent : QueueEvent → Bool
  | QueueEvent.cmdSubmit _ => true
  | QueueEvent.presentImage _ => true
  | QueueEvent.reflexMarker _ _ => true
  | QueueEvent.throttleSleep _ => true
  | _ => false

/- ### Concrete runs used by counterexamples and witnesses -/

/-- A command list whose device submission fails with a non-device-lost
error. -/
def cmdFail : DxvkCommandList :=
  { clid := 0, submitResult := VkResult.VK_ERROR_OUT_OF_DEVICE_MEMORY,
    syncResult := VkResult.VK_SUCCESS }

/-- A command list whose device calls all succeed. -/
def cmdOk : DxvkCommandList :=
  { clid := 1, submitResult := VkResult.VK_SUCCESS,
    syncResult := VkResult.VK_SUCCESS }

def exFailInfo : DxvkSubmitInfo := { cmdList := some cmdFail }

def exOkInfo : DxvkSubmitInfo := { cmdList := some cmdOk }

/-- A presenter whose `presentImage` succeeds. -/
def pres : DxvkPresenter := { prid := 0, presentResult := VkResult.VK_SUCCESS }

def cfg0 : DeviceConfig := { presentThrottleDelay := 0, enableAftermath := false }

def cfgA : DeviceConfig := { presentThrottleDelay := 0, enableAftermath := true }

/-- The quiescent state after one failing submit has been enqueued and
dispatched: both FIFOs are empty again, `m_lastError` is sticky. -/
def stateAfterFail : QueueState :=
  (submitterStep cfg0 (submit exFailInfo initialState).1).1

/-- `stateAfterFail` after a further submit of a healthy command list. -/
def stateRetry : QueueState := (submit exOkInfo stateAfterFail).1

/-- `MaxNumQueuedCommandBuffers` submit entries in flight. -/
def fullState : QueueState :=
  { initialState with
      submitQueue := List.replicate MaxNumQueuedCommandBuffers (mkSubmitEntry exOkInfo),
      pending := MaxNumQueuedCommandBuffers }

/-- `MaxNumQueuedCommandBuffers + 1` submit entries in flight. -/
def overfullState : QueueState :=
  { initialState with
      submitQueue :=
        List.replicate (MaxNumQueuedCommandBuffers + 1) (mkSubmitEntry exOkInfo),
      pending := MaxNumQueuedCommandBuffers + 1 }

/-- `MaxNumQueuedCommandBuffers + 1` successfully submitted entries waiting
in the completion FIFO. -/
def finState : QueueState :=
  { initialState with
      finishQueue :=
        List.replicate (MaxNumQueuedCommandBuffers + 1) (mkSubmitEntry exOkInfo),
      pending := MaxNumQueuedCommandBuffers + 1 }

/-- The result of one finisher iteration on `finState`. -/
def finPopped : QueueState × List QueueEvent :=
  (finisherStep finState).getD (initialState, [])

/-- A submit entry with an attached status slot. -/
def lostEntry : DxvkSubmitEntry :=
  { status := some 0, submit := { cmdList := some cmdOk },
    present := { presenter := none, frameId := 0 } }

/-- A queue with sticky device loss and one pending entry to drain. -/
def lostState : QueueState :=
  { initialState with lastError := VkResult.VK_ERROR_DEVICE_LOST,
                      submitQueue := [lostEntry], pending := 1 }

/-- A pending FIFO holding only present entries, one past the capacity. -/
def presOnlyState : QueueState :=
  { initialState with
      submitQueue :=
        List.replicate (MaxNumQueuedCommandBuffers + 1)
          (mkPresentEntry { presenter := some pres, frameId := 0 } none) }

/-- One pending submit entry whose device submission will fail with
`VK_ERROR_OUT_OF_DEVICE_MEMORY`. -/
def failSubmitState : QueueState :=
  { initialState with submitQueue := [mkSubmitEntry exFailInfo], pending := 1 }

/-- One pending submit entry whose device submission will succeed. -/
def okPendingState : QueueState :=
  { initialState with submitQueue := [mkSubmitEntry exOkInfo], pending := 1 }

/-- One successfully submitted entry waiting in the completion FIFO. -/
def finOneState : QueueState :=
  { initialState with finishQueue := [mkSubmitEntry exOkInfo], pending := 1 }

/- ### Helper lemmas -/

lemma countSubmitEntries_nil : countSubmitEntries [] = 0 := rfl

lemma countSubmitEntries_cons (e : DxvkSubmitEntry) (q : List DxvkSubmitEntry) :
    countSubmitEntries (e :: q) =
      (if e.submit.cmdList.isSome then 1 else 0) + countSubmitEntries q := by
  simp only [countSubmitEntries, List.filter_cons]
  split <;> simp [Nat.add_comm]

lemma countSubmitEntries_append (q₁ q₂ : List DxvkSubmitEntry) :
    countSubmitEntries (q₁ ++ q₂) = countSubmitEntries q₁ + countSubmitEntries q₂ := by
  simp [countSubmitEntries, List.filter_append]

lemma completeEntry_submitQueue (cfg : DeviceConfig) (st : VkResult)
    (e : DxvkSubmitEntry) (s : QueueState) :
    (completeEntry cfg st e s).1.submitQueue = s.submitQueue.tail := by
  unfold completeEntry
  split
  · split <;> rfl
  · split <;> rfl

lemma completeEntry_pending (cfg : DeviceConfig) (st : VkResult)
    (e : DxvkSubmitEntry) (s : QueueState) :
    (completeEntry cfg st e s).1.pending = s.pending := by
  unfold completeEntry
  split
  · split <;> rfl
  · split <;> rfl

lemma completeEntry_finishQueue (cfg : DeviceConfig) (st : VkResult)
    (e : DxvkSubmitEntry) (s : QueueState) :
    (completeEntry cfg st e s).1.finishQueue =
      if st = VkResult.VK_SUCCESS ∧ e.submit.cmdList ≠ none
      then s.finishQueue ++ [e] else s.finishQueue := by
  unfold completeEntry
  split
  · split <;> simp_all
  · split <;> simp_all

lemma submitterStep_decompose (cfg : DeviceConfig) (s : QueueState)
    (entry : DxvkSubmitEntry) (rest : List DxvkSubmitEntry)
    (hq : s.submitQueue = entry :: rest) :
    submitterStep cfg s =
      ((completeEntry cfg (dispatchEntry cfg s.lastError entry).1 entry s).1,
        (dispatchEntry cfg s.lastError entry).2
          ++ statusEvents entry (dispatchEntry cfg s.lastError entry).1
          ++ (completeEntry cfg (dispatchEntry cfg s.lastError entry).1 entry s).2) := by
  simp [submitterStep, hq]

lemma dispatch_events (cfg : DeviceConfig) (le : VkResult) (e : DxvkSubmitEntry) :
    ∀ ev ∈ (dispatchEntry cfg le e).2, isDispatchEvent ev = true := by
  intro ev hev
  unfold dispatchEntry at hev
  by_cases hle : le = VkResult.VK_ERROR_DEVICE_LOST
  · simp [hle] at hev
  · cases hc : e.submit.cmdList with
    | some c => simp [hle, hc] at hev; simp [hev, isDispatchEvent]
    | none =>
      cases hp : e.present.presenter with
      | some p =>
        by_cases ht : cfg.presentThrottleDelay > 0 <;>
          · simp [hle, hc, hp, ht] at hev
            rcases hev with rfl | rfl | rfl | rfl <;> rfl
      | none => simp [hle, hc, hp] at hev

lemma statusEvents_forms (e : DxvkSubmitEntry) (r : VkResult) :
    ∀ ev ∈ statusEvents e r, ∃ slot, ev = QueueEvent.statusWrite slot r := by
  intro ev hev
  unfold statusEvents at hev
  cases hs : e.status with
  | some slot => simp [hs] at hev; exact ⟨slot, hev⟩
  | none => simp [hs] at hev

lemma completeEntry_events (cfg : DeviceConfig) (st : VkResult)
    (e : DxvkSubmitEntry) (s : QueueState) :
    ∀ ev ∈ (completeEntry cfg st e s).2,
      (∃ r, ev = QueueEvent.logError r) ∨ ev = QueueEvent.aftermathPoll ∨
        ev = QueueEvent.waitForIdle ∨ ev = QueueEvent.notify CondVar.submitCond := by
  intro ev hev
  unfold completeEntry at hev
  split at hev
  · split at hev <;> simp at hev <;> simp [hev]
  · split at hev
    · by_cases hA : cfg.enableAftermath <;>
        · simp [hA] at hev
          rcases hev with rfl | rfl | rfl | rfl <;> simp
    · simp at hev; simp [hev]

lemma aftermathPoll_in_completeEntry (cfg : DeviceConfig) (st : VkResult)
    (e : DxvkSubmitEntry) (s : QueueState) :
    QueueEvent.aftermathPoll ∈ (completeEntry cfg st e s).2 ↔
      (cfg.enableAftermath = true ∧ st ≠ VkResult.VK_SUCCESS ∧
        (st = VkResult.VK_ERROR_DEVICE_LOST ∨ e.submit.cmdList ≠ none)) := by
  unfold completeEntry
  by_cases hst : st = VkResult.VK_SUCCESS
  · simp only [if_pos hst]
    split <;> simp [hst]
  · simp only [if_neg hst]
    by_cases hor : st = VkResult.VK_ERROR_DEVICE_LOST ∨ e.submit.cmdList ≠ none
    · simp only [if_pos hor]
      by_cases hA : cfg.enableAftermath <;> simp [hA, hst, hor]
    · simp only [if_neg hor]
      simp [hst, hor]

lemma submitterStep_deviceLost (cfg : DeviceConfig) (s : QueueState)
    (entry : DxvkSubmitEntry) (rest : List DxvkSubmitEntry)
    (hq : s.submitQueue = entry :: rest)
    (he : s.lastError = VkResult.VK_ERROR_DEVICE_LOST) :
    (submitterStep cfg s).1 =
      { s with lastError := VkResult.VK_ERROR_DEVICE_LOST, submitQueue := rest } ∧
    (submitterStep cfg s).2 =
      statusEvents entry VkResult.VK_ERROR_DEVICE_LOST
        ++ ([QueueEvent.logError VkResult.VK_ERROR_DEVICE_LOST]
              ++ (if cfg.enableAftermath then [QueueEvent.aftermathPoll] else [])
              ++ [QueueEvent.waitForIdle, QueueEvent.notify CondVar.submitCond]) := by
  rw [submitterStep_decompose cfg s entry rest hq]
  have hd : dispatchEntry cfg s.lastError entry =
      (VkResult.VK_ERROR_DEVICE_LOST, []) := by
    unfold dispatchEntry
    simp [he]
  rw [hd]
  unfold completeEntry
  simp [hq]

lemma submitN_lengths (info : DxvkSubmitInfo) (k : Nat) :
    (submitN info k initialState).submitQueue.length = k ∧
    (submitN info k initialState).finishQueue = [] := by
  induction k with
  | zero => simp [submitN, initialState]
  | succ n ih =>
    simp only [submitN, submit]
    simp [ih.1, ih.2]

instance (s : QueueState) : Decidable (pendingInv s) := by
  unfold pendingInv; infer_instance

instance (s : QueueState) : Decidable (finishSafe s) := by
  unfold finishSafe; infer_instance

/- ### Claims -/

/-- C1, as stated, is false on the code: the submitter only short-circuits on
`m_lastError == VK_ERROR_DEVICE_LOST`.  Here a first submit fails with
`VK_ERROR_OUT_OF_DEVICE_MEMORY`, making `m_lastError` sticky and
non-success, yet the next dispatched entry still invokes
`cmdList->submit` on the device queue. -/
theorem C1_counterexample :
    stateAfterFail.lastError = VkResult.VK_ERROR_OUT_OF_DEVICE_MEMORY ∧
    stateAfterFail.lastError ≠ VkResult.VK_SUCCESS ∧
    QueueEvent.cmdSubmit 1 ∈ (submitterStep cfg0 stateRetry).2 := by
  decide

/-- C1 (amended): after `LastError` has become `VK_ERROR_DEVICE_LOST`
(rather than any non-success result), the submitter skips the device: the
dispatch phase performs no device call, the entry's status short-circuits to
`VK_ERROR_DEVICE_LOST`, and no event of the whole iteration touches the
device queue. -/
theorem C1_deviceLost_short_circuit (cfg : DeviceConfig) (s : QueueState)
    (entry : DxvkSubmitEntry) (rest : List DxvkSubmitEntry)
    (hq : s.submitQueue = entry :: rest)
    (he : s.lastError = VkResult.VK_ERROR_DEVICE_LOST) :
    (dispatchEntry cfg s.lastError entry).1 = VkResult.VK_ERROR_DEVICE_LOST ∧
    (dispatchEntry cfg s.lastError entry).2 = [] ∧
    ∀ ev ∈ (submitterStep cfg s).2, touchesDeviceQueue ev = false := by
  have hsd := submitterStep_deviceLost cfg s entry rest hq he
  refine ⟨by simp [dispatchEntry, he], by simp [dispatchEntry, he], ?_⟩
  intro ev hev
  rw [hsd.2] at hev
  rcases List.mem_append.1 hev with h1 | h2
  · obtain ⟨slot, rfl⟩ := statusEvents_forms entry _ ev h1
    rfl
  · by_cases hA : cfg.enableAftermath
    · simp [hA] at h2
      rcases h2 with rfl | rfl | rfl | rfl <;> rfl
    · simp [hA] at h2
      rcases h2 with rfl | rfl | rfl <;> rfl

theorem C1_witness :
    (dispatchEntry cfg0 lostState.lastError lostEntry).1 = VkResult.VK_ERROR_DEVICE_LOST ∧
    (dispatchEntry cfg0 lostState.lastError lostEntry).2 = [] ∧
    ∀ ev ∈ (submitterStep cfg0 lostState).2, touchesDeviceQueue ev = false :=
  C1_deviceLost_short_circuit cfg0 lostState lostEntry [] (by decide) (by decide)

/-- C2, as stated, is false on the code: `m_pending` is decremented only by
the finisher, but a submit entry whose device submission fails is drained
without ever reaching `m_finishQueue`.  After one failing submit the queue is
quiescent (both FIFOs empty, both workers would be blocked in their waits)
with `m_pending == 1` while both FIFOs are empty. -/
theorem C2_counterexample :
    ¬ pendingInv stateAfterFail ∧
    stateAfterFail.submitQueue = [] ∧
    stateAfterFail.finishQueue = [] ∧
    stateAfterFail.pending = 1 := by
  decide

/-- C2 (amended): `PendingCount == |pending submits| + |completion|` is
preserved by `submit` (of a non-null command list), by `present`, by a
submitter iteration whose drained head either is not a submit entry or
submitted with `VK_SUCCESS`, and by every finisher iteration; but a submitter
iteration draining a failing submit entry leaves `PendingCount` exceeding the
sum by one, so the equality only holds at quiescent points reached without a
failed submit. -/
theorem C2_pendingCount_invariant :
    (∀ (info : DxvkSubmitInfo) (s : QueueState),
        pendingInv s → info.cmdList ≠ none → pendingInv (submit info s).1) ∧
    (∀ (info : DxvkPresentInfo) (st : Option Nat) (s : QueueState),
        pendingInv s → pendingInv (present info st s).1) ∧
    (∀ (cfg : DeviceConfig) (s : QueueState), pendingInv s →
        (∀ entry rest, s.submitQueue = entry :: rest →
          entry.submit.cmdList ≠ none →
          (dispatchEntry cfg s.lastError entry).1 = VkResult.VK_SUCCESS) →
        pendingInv (submitterStep cfg s).1) ∧
    (∀ (cfg : DeviceConfig) (s : QueueState) entry rest,
        pendingInv s → s.submitQueue = entry :: rest →
        entry.submit.cmdList ≠ none →
        (dispatchEntry cfg s.lastError entry).1 ≠ VkResult.VK_SUCCESS →
        (submitterStep cfg s).1.pending =
          countSubmitEntries (submitterStep cfg s).1.submitQueue
            + (submitterStep cfg s).1.finishQueue.length + 1) ∧
    (∀ (s : QueueState) (r : QueueState × List QueueEvent),
        pendingInv s → finisherStep s = some r → pendingInv r.1) := by
  refine ⟨?_, ?_, ?_, ?_, ?_⟩
  · intro info s hinv hcl
    unfold pendingInv at hinv ⊢
    simp only [submit]
    rw [countSubmitEntries_append, countSubmitEntries_cons]
    simp [mkSubmitEntry, Option.isSome_iff_ne_none, hcl, countSubmitEntries_nil]
    omega
  · intro info st s hinv
    unfold pendingInv at hinv ⊢
    simp only [present]
    rw [countSubmitEntries_append, countSubmitEntries_cons]
    simp [mkPresentEntry, countSubmitEntries_nil]
    omega
  · intro cfg s hinv hsucc
    cases hq : s.submitQueue with
    | nil => simpa [submitterStep, hq] using hinv
    | cons entry rest =>
      rw [submitterStep_decompose cfg s entry rest hq]
      unfold pendingInv at hinv ⊢
      rw [completeEntry_pending, completeEntry_submitQueue, completeEntry_finishQueue, hq]
      rw [hq, countSubmitEntries_cons] at hinv
      by_cases hcl : entry.submit.cmdList = none
      · have hnot : ¬ ((dispatchEntry cfg s.lastError entry).1 = VkResult.VK_SUCCESS ∧
            entry.submit.cmdList ≠ none) := by
          rintro ⟨_, hne⟩; exact hne hcl
        rw [if_neg hnot]
        simp only [List.tail_cons]
        simp [hcl] at hinv
        omega
      · have hyes : ((dispatchEntry cfg s.lastError entry).1 = VkResult.VK_SUCCESS ∧
            entry.submit.cmdList ≠ none) := ⟨hsucc entry rest hq hcl, hcl⟩
        rw [if_pos hyes]
        simp only [List.tail_cons, List.length_append, List.length_cons, List.length_nil]
        simp [Option.isSome_iff_ne_none, hcl] at hinv
        omega
  · intro cfg s entry rest hinv hq hcl hst
    rw [submitterStep_decompose cfg s entry rest hq]
    unfold pendingInv at hinv
    rw [completeEntry_pending, completeEntry_submitQueue, completeEntry_finishQueue, hq]
    rw [hq, countSubmitEntries_cons] at hinv
    have hnot : ¬ ((dispatchEntry cfg s.lastError entry).1 = VkResult.VK_SUCCESS ∧
        entry.submit.cmdList ≠ none) := fun h => hst h.1
    rw [if_neg hnot]
    simp only [List.tail_cons]
    simp [Option.isSome_iff_ne_none, hcl] at hinv
    omega
  · intro s r hinv hr
    unfold finisherStep at hr
    cases hq : s.finishQueue with
    | nil =>
      rw [hq] at hr
      simp at hr
      rw [← hr]
      exact hinv
    | cons entry rest =>
      rw [hq] at hr
      cases hcl : entry.submit.cmdList with
      | none => simp [hcl] at hr
      | some c =>
        simp only [hcl] at hr
        simp at hr
        subst hr
        unfold pendingInv at hinv ⊢
        rw [hq] at hinv
        simp only [List.length_cons] at hinv
        simp only [List.tail_cons]
        omega

theorem C2_witness :
    pendingInv (submit exOkInfo initialState).1 ∧
    pendingInv (present { presenter := some pres, frameId := 0 } none initialState).1 ∧
    pendingInv (submitterStep cfg0 okPendingState).1 ∧
    ((submitterStep cfg0 failSubmitState).1.pending =
      countSubmitEntries (submitterStep cfg0 failSubmitState).1.submitQueue
        + (submitterStep cfg0 failSubmitState).1.finishQueue.length + 1) ∧
    pendingInv ((finisherStep finOneState).getD (initialState, [])).1 :=
  ⟨C2_pendingCount_invariant.1 exOkInfo initialState (by decide) (by decide),
   C2_pendingCount_invariant.2.1 { presenter := some pres, frameId := 0 } none
     initialState (by decide),
   C2_pendingCount_invariant.2.2.1 cfg0 okPendingState (by decide)
     (by
       intro entry rest hq hcl
       have hq2 : mkSubmitEntry exOkInfo :: [] = entry :: rest := hq
       injection hq2 with h1 h2
       subst h1
       decide),
   C2_pendingCount_invariant.2.2.2.1 cfg0 failSubmitState (mkSubmitEntry exFailInfo) []
     (by decide) (by decide) (by decide) (by decide),
   C2_pendingCount_invariant.2.2.2.2 finOneState
     ((finisherStep finOneState).getD (initialState, [])) (by decide) (by decide)⟩

/-- C3, as stated, is false on the code: the backpressure wait predicate is
`m_submitQueue.size() + m_finishQueue.size() <= MaxNumQueuedCommandBuffers`,
so with exactly `MaxNumQueuedCommandBuffers` entries in flight the predicate
already holds and the next `submit` does not block. -/
theorem C3_counterexample :
    fullState.submitQueue.length + fullState.finishQueue.length
      = MaxNumQueuedCommandBuffers ∧
    submitWaitDone fullState = true := by
  decide

/-- C3 (amended): `submit` blocks exactly while
`|pending| + |completion| > MAX_QUEUED`, so `MAX_QUEUED` submits into an
empty pipeline (indeed `MAX_QUEUED + 1`) return without blocking and the
first blocked submit is the one issued with `MAX_QUEUED + 1` entries in
flight; a finisher iteration pops exactly one entry, and from
`MAX_QUEUED + 1` in flight this makes the wait predicate true again. -/
theorem C3_capacity_boundary :
    (∀ s : QueueState, submitWaitDone s = true ↔
        s.submitQueue.length + s.finishQueue.length ≤ MaxNumQueuedCommandBuffers) ∧
    (∀ s : QueueState,
        s.submitQueue.length + s.finishQueue.length = MaxNumQueuedCommandBuffers + 1 →
        submitWaitDone s = false) ∧
    (∀ (info : DxvkSubmitInfo) (k : Nat), k ≤ MaxNumQueuedCommandBuffers →
        submitWaitDone (submitN info k initialState) = true) ∧
    (∀ (s : QueueState) entry rest, s.finishQueue = entry :: rest →
        ∀ r, finisherStep s = some r →
        r.1.submitQueue.length + r.1.finishQueue.length + 1
          = s.submitQueue.length + s.finishQueue.length ∧
        (s.submitQueue.length + s.finishQueue.length = MaxNumQueuedCommandBuffers + 1 →
          submitWaitDone r.1 = true)) := by
  refine ⟨?_, ?_, ?_, ?_⟩
  · intro s
    simp [submitWaitDone]
  · intro s h
    simp only [submitWaitDone, decide_eq_false_iff_not]
    omega
  · intro info k hk
    have hl := submitN_lengths info k
    simp only [submitWaitDone, hl.1, hl.2, List.length_nil, decide_eq_true_eq]
    omega
  · intro s entry rest hq r hr
    unfold finisherStep at hr
    rw [hq] at hr
    cases hcl : entry.submit.cmdList with
    | none => simp [hcl] at hr
    | some c =>
      simp only [hcl] at hr
      simp at hr
      subst hr
      simp only [List.tail_cons]
      constructor
      · rw [hq]
        simp only [List.length_cons]
        omega
      · intro hsum
        rw [hq] at hsum
        simp only [List.length_cons] at hsum
        simp only [submitWaitDone, decide_eq_true_eq]
        omega

theorem C3_witness :
    submitWaitDone overfullState = false ∧
    submitWaitDone (submitN exOkInfo MaxNumQueuedCommandBuffers initialState) = true ∧
    (finPopped.1.submitQueue.length + finPopped.1.finishQueue.length + 1
        = finState.submitQueue.length + finState.finishQueue.length ∧
      (finState.submitQueue.length + finState.finishQueue.length
          = MaxNumQueuedCommandBuffers + 1 →
        submitWaitDone finPopped.1 = true)) :=
  ⟨C3_capacity_boundary.2.1 overfullState (by decide),
   C3_capacity_boundary.2.2.1 exOkInfo MaxNumQueuedCommandBuffers (by decide),
   C3_capacity_boundary.2.2.2 finState (mkSubmitEntry exOkInfo)
     (List.replicate MaxNumQueuedCommandBuffers (mkSubmitEntry exOkInfo)) (by decide)
     finPopped (by decide)⟩

/-- C4, as stated, is false on the code: draining an entry under sticky
device loss does short-circuit its status to `VK_ERROR_DEVICE_LOST`, but the
error branch then runs `m_device->waitForIdle()` — a device-level call — for
every drained entry. -/
theorem C4_counterexample :
    lostState.lastError = VkResult.VK_ERROR_DEVICE_LOST ∧
    QueueEvent.statusWrite 0 VkResult.VK_ERROR_DEVICE_LOST
      ∈ (submitterStep cfg0 lostState).2 ∧
    QueueEvent.waitForIdle ∈ (submitterStep cfg0 lostState).2 := by
  decide

/-- C4 (amended): once `LastError` is `VK_ERROR_DEVICE_LOST`, every drained
entry receives `VK_ERROR_DEVICE_LOST` as its status and the device queue is
not touched (no `cmdList->submit`, no `presentImage`), but the pipeline does
invoke `m_device->waitForIdle()` (and the crash-dump poll when Aftermath is
enabled) per drained entry. -/
theorem C4_deviceLost_drain (cfg : DeviceConfig) (s : QueueState)
    (entry : DxvkSubmitEntry) (rest : List DxvkSubmitEntry)
    (hq : s.submitQueue = entry :: rest)
    (he : s.lastError = VkResult.VK_ERROR_DEVICE_LOST) :
    (∀ slot, entry.status = some slot →
        QueueEvent.statusWrite slot VkResult.VK_ERROR_DEVICE_LOST
          ∈ (submitterStep cfg s).2) ∧
    (∀ ev ∈ (submitterStep cfg s).2, touchesDeviceQueue ev = false) ∧
    QueueEvent.waitForIdle ∈ (submitterStep cfg s).2 := by
  have hsd := submitterStep_deviceLost cfg s entry rest hq he
  refine ⟨?_, ?_, ?_⟩
  · intro slot hs
    rw [hsd.2]
    simp [statusEvents, hs]
  · intro ev hev
    rw [hsd.2] at hev
    rcases List.mem_append.1 hev with h1 | h2
    · obtain ⟨sl, rfl⟩ := statusEvents_forms entry _ ev h1
      rfl
    · by_cases hA : cfg.enableAftermath
      · simp [hA] at h2
        rcases h2 with rfl | rfl | rfl | rfl <;> rfl
      · simp [hA] at h2
        rcases h2 with rfl | rfl | rfl <;> rfl
  · rw [hsd.2]
    by_cases hA : cfg.enableAftermath <;> simp [hA]

theorem C4_witness :
    (∀ slot, lostEntry.status = some slot →
        QueueEvent.statusWrite slot VkResult.VK_ERROR_DEVICE_LOST
          ∈ (submitterStep cfgA lostState).2) ∧
    (∀ ev ∈ (submitterStep cfgA lostState).2, touchesDeviceQueue ev = false) ∧
    QueueEvent.waitForIdle ∈ (submitterStep cfgA lostState).2 :=
  C4_deviceLost_drain cfgA lostState lostEntry [] (by decide) (by decide)

/-- C5, as stated, is false on the code: the wait predicate in `submit`
counts `m_submitQueue.size()`, which includes present entries.  A pending
FIFO holding only present entries (zero submit entries) past the capacity
already makes the predicate false, so a submit caller would block. -/
theorem C5_counterexample :
    (∀ e ∈ presOnlyState.submitQueue, e.submit.cmdList = none) ∧
    presOnlyState.finishQueue = [] ∧
    submitWaitDone presOnlyState = false := by
  decide

/-- C5 (amended): present entries are admitted unconditionally (`present`
only appends its entry, touching neither `m_pending` nor the completion
FIFO and performing no capacity wait), but every entry of PendingQueue,
presents included, counts toward the `|pending| + |completion|` quantity
gating `submit`. -/
theorem C5_presents_count :
    (∀ (info : DxvkPresentInfo) (st : Option Nat) (s : QueueState),
        (present info st s).1.submitQueue = s.submitQueue ++ [mkPresentEntry info st] ∧
        (present info st s).1.pending = s.pending ∧
        (present info st s).1.finishQueue = s.finishQueue) ∧
    (∀ s : QueueState, (∀ e ∈ s.submitQueue, e.submit.cmdList = none) →
        s.submitQueue.length + s.finishQueue.length > MaxNumQueuedCommandBuffers →
        submitWaitDone s = false) := by
  constructor
  · intro info st s
    exact ⟨rfl, rfl, rfl⟩
  · intro s _ hgt
    simp only [submitWaitDone, decide_eq_false_iff_not]
    omega

theorem C5_witness :
    (present { presenter := some pres, frameId := 0 } none fullState).1.submitQueue
      = fullState.submitQueue
          ++ [mkPresentEntry { presenter := some pres, frameId := 0 } none] ∧
    submitWaitDone presOnlyState = false :=
  ⟨(C5_presents_count.1 { presenter := some pres, frameId := 0 } none fullState).1,
   C5_presents_count.2 presOnlyState (by decide) (by decide)⟩

/-- C6, as stated, is false on the code: the Aftermath crash-dump poll sits
inside the error branch taken for any failing submit entry
(`status == VK_ERROR_DEVICE_LOST || entry.submit.cmdList != nullptr`) and is
gated only by `enableAftermath`.  Here a submit fails with
`VK_ERROR_OUT_OF_DEVICE_MEMORY`, not device-lost, yet the poll runs. -/
theorem C6_counterexample :
    (dispatchEntry cfgA failSubmitState.lastError (mkSubmitEntry exFailInfo)).1
      = VkResult.VK_ERROR_OUT_OF_DEVICE_MEMORY ∧
    QueueEvent.aftermathPoll ∈ (submitterStep cfgA failSubmitState).2 := by
  decide

/-- C6 (amended): the crash-dump poll is gated by the `enableAftermath`
config flag, not by the failing result being device-lost: with the flag off
a submitter iteration never polls; with the flag on, a submit entry failing
with any non-success result reaches the poll; and the finisher's fence
failures never run the poll at all. -/
theorem C6_aftermath_gating :
    (∀ (cfg : DeviceConfig) (s : QueueState), cfg.enableAftermath = false →
        QueueEvent.aftermathPoll ∉ (submitterStep cfg s).2) ∧
    (∀ (cfg : DeviceConfig) (s : QueueState) entry rest,
        s.submitQueue = entry :: rest → cfg.enableAftermath = true →
        entry.submit.cmdList ≠ none →
        (dispatchEntry cfg s.lastError entry).1 ≠ VkResult.VK_SUCCESS →
        QueueEvent.aftermathPoll ∈ (submitterStep cfg s).2) ∧
    (∀ (s : QueueState) r, finisherStep s = some r →
        QueueEvent.aftermathPoll ∉ r.2) := by
  refine ⟨?_, ?_, ?_⟩
  · intro cfg s hA hmem
    cases hq : s.submitQueue with
    | nil => simp [submitterStep, hq] at hmem
    | cons entry rest =>
      rw [submitterStep_decompose cfg s entry rest hq] at hmem
      simp only [List.mem_append] at hmem
      rcases hmem with (h1 | h2) | h3
      · exact absurd (dispatch_events cfg s.lastError entry _ h1) (by decide)
      · obtain ⟨slot, h⟩ := statusEvents_forms entry _ _ h2
        simp at h
      · rw [aftermathPoll_in_completeEntry] at h3
        rw [hA] at h3
        simp at h3
  · intro cfg s entry rest hq hA hcl hst
    rw [submitterStep_decompose cfg s entry rest hq]
    simp only [List.mem_append]
    right
    rw [aftermathPoll_in_completeEntry]
    exact ⟨hA, hst, Or.inr hcl⟩
  · intro s r hr hmem
    unfold finisherStep at hr
    cases hq : s.finishQueue with
    | nil =>
      rw [hq] at hr
      simp at hr
      rw [← hr] at hmem
      simp at hmem
    | cons entry rest =>
      rw [hq] at hr
      cases hcl : entry.submit.cmdList with
      | none => simp [hcl] at hr
      | some c =>
        simp only [hcl] at hr
        simp at hr
        subst hr
        by_cases hdl : s.lastError = VkResult.VK_ERROR_DEVICE_LOST
        · simp [hdl] at hmem
        · by_cases hsr : c.syncResult = VkResult.VK_SUCCESS <;>
            simp [hdl, hsr] at hmem

theorem C6_witness :
    QueueEvent.aftermathPoll ∉ (submitterStep cfg0 okPendingState).2 ∧
    QueueEvent.aftermathPoll ∈ (submitterStep cfgA failSubmitState).2 ∧
    QueueEvent.aftermathPoll ∉ ((finisherStep finOneState).getD (initialState, [])).2 :=
  ⟨C6_aftermath_gating.1 cfg0 okPendingState (by decide),
   C6_aftermath_gating.2.1 cfgA failSubmitState (mkSubmitEntry exFailInfo) []
     (by decide) (by decide) (by decide) (by decide),
   C6_aftermath_gating.2.2 finOneState ((finisherStep finOneState).getD (initialState, []))
     (by decide)⟩

/-- C7 (confirmed): `synchronize` returns exactly when `m_submitQueue` is
empty; the submitter reads the head with `front()` without popping, so the
state observed during the whole device call still has the entry at the head
(`dispatchEntry` takes no queue state at all) and `synchronize` cannot
return then; the pop happens once, at the end of the iteration. -/
theorem C7_synchronize_inflight :
    (∀ s : QueueState, synchronizeDone s = true ↔ s.submitQueue = []) ∧
    (∀ (s : QueueState) entry rest, s.submitQueue = entry :: rest →
        synchronizeDone s = false) ∧
    (∀ (cfg : DeviceConfig) (s : QueueState),
        (submitterStep cfg s).1.submitQueue = s.submitQueue.tail) := by
  refine ⟨?_, ?_, ?_⟩
  · intro s
    simp [synchronizeDone, List.isEmpty_iff]
  · intro s entry rest hq
    simp [synchronizeDone, hq]
  · intro cfg s
    cases hq : s.submitQueue with
    | nil => simp [submitterStep, hq]
    | cons entry rest =>
      rw [submitterStep_decompose cfg s entry rest hq]
      rw [completeEntry_submitQueue, hq]

theorem C7_witness :
    synchronizeDone okPendingState = false ∧
    synchronizeDone initialState = true ∧
    (submitterStep cfg0 okPendingState).1.submitQueue
      = okPendingState.submitQueue.tail :=
  ⟨C7_synchronize_inflight.2.1 okPendingState (mkSubmitEntry exOkInfo) [] (by decide),
   (C7_synchronize_inflight.1 initialState).2 (by decide),
   C7_synchronize_inflight.2.2 cfg0 okPendingState⟩

/-- C8 (confirmed): `present` contains no capacity wait — it appends its
entry and returns, even in a state where
`|pending| + |completion| == MAX_QUEUED`; its only signal is
`m_appendCond`. -/
theorem C8_present_never_blocks (info : DxvkPresentInfo) (st : Option Nat)
    (s : QueueState)
    (_hfull : s.submitQueue.length + s.finishQueue.length = MaxNumQueuedCommandBuffers) :
    (present info st s).1
      = { s with submitQueue := s.submitQueue ++ [mkPresentEntry info st] } ∧
    (present info st s).2 = [QueueEvent.notify CondVar.appendCond] :=
  ⟨rfl, rfl⟩

theorem C8_witness :
    (present { presenter := some pres, frameId := 0 } none fullState).1
      = { fullState with
            submitQueue := fullState.submitQueue
              ++ [mkPresentEntry { presenter := some pres, frameId := 0 } none] } ∧
    (present { presenter := some pres, frameId := 0 } none fullState).2
      = [QueueEvent.notify CondVar.appendCond] :=
  C8_present_never_blocks { presenter := some pres, frameId := 0 } none fullState
    (by decide)

/-- C9 (confirmed): a submitter iteration pushes onto `m_finishQueue` exactly
when the drained entry has a non-null command list and its submission
returned `VK_SUCCESS`; hence every entry of the completion FIFO carries a
non-null command list (an invariant preserved by all operations), and the
finisher's unconditional dereference of the head's command list never hits
null. -/
theorem C9_completion_only_successful_submits :
    (∀ (cfg : DeviceConfig) (s : QueueState) entry rest,
        s.submitQueue = entry :: rest →
        (((dispatchEntry cfg s.lastError entry).1 = VkResult.VK_SUCCESS ∧
            entry.submit.cmdList ≠ none) →
          (submitterStep cfg s).1.finishQueue = s.finishQueue ++ [entry] ∧
          ∃ c, entry.submit.cmdList = some c ∧
            c.submitResult = VkResult.VK_SUCCESS) ∧
        (¬ ((dispatchEntry cfg s.lastError entry).1 = VkResult.VK_SUCCESS ∧
            entry.submit.cmdList ≠ none) →
          (submitterStep cfg s).1.finishQueue = s.finishQueue)) ∧
    (∀ (cfg : DeviceConfig) (s : QueueState), finishSafe s →
        finishSafe (submitterStep cfg s).1) ∧
    (∀ (info : DxvkSubmitInfo) (s : QueueState), finishSafe s →
        finishSafe (submit info s).1) ∧
    (∀ (info : DxvkPresentInfo) (st : Option Nat) (s : QueueState), finishSafe s →
        finishSafe (present info st s).1) ∧
    (∀ s : QueueState, finishSafe s → finisherStep s ≠ none) := by
  refine ⟨?_, ?_, ?_, ?_, ?_⟩
  · intro cfg s entry rest hq
    constructor
    · intro h
      constructor
      · rw [submitterStep_decompose cfg s entry rest hq, completeEntry_finishQueue,
          if_pos h]
      · cases hc : entry.submit.cmdList with
        | none => exact absurd hc h.2
        | some c =>
          by_cases hdl : s.lastError = VkResult.VK_ERROR_DEVICE_LOST
          · exfalso
            have h1 := h.1
            unfold dispatchEntry at h1
            simp [hdl] at h1
          · refine ⟨c, rfl, ?_⟩
            have h1 := h.1
            unfold dispatchEntry at h1
            rw [if_pos hdl] at h1
            simp [hc] at h1
            exact h1
    · intro h
      rw [submitterStep_decompose cfg s entry rest hq, completeEntry_finishQueue,
        if_neg h]
  · intro cfg s hs
    cases hq : s.submitQueue with
    | nil => simpa [submitterStep, hq] using hs
    | cons entry rest =>
      rw [submitterStep_decompose cfg s entry rest hq]
      unfold finishSafe at hs ⊢
      intro e he
      rw [completeEntry_finishQueue] at he
      by_cases hcond : ((dispatchEntry cfg s.lastError entry).1 = VkResult.VK_SUCCESS ∧
          entry.submit.cmdList ≠ none)
      · rw [if_pos hcond] at he
        rcases List.mem_append.1 he with h1 | h2
        · exact hs e h1
        · simp at h2
          subst h2
          exact hcond.2
      · rw [if_neg hcond] at he
        exact hs e he
  · intro info s hs
    unfold finishSafe at hs ⊢
    simpa [submit] using hs
  · intro info st s hs
    unfold finishSafe at hs ⊢
    simpa [present] using hs
  · intro s hs
    cases hq : s.finishQueue with
    | nil =>
      unfold finisherStep
      rw [hq]
      simp
    | cons entry rest =>
      unfold finisherStep
      rw [hq]
      cases hcl : entry.submit.cmdList with
      | none =>
        exact absurd hcl (hs entry (by rw [hq]; exact List.mem_cons_self entry rest))
      | some c =>
        simp [hcl]

theorem C9_witness :
    ((submitterStep cfg0 okPendingState).1.finishQueue
        = okPendingState.finishQueue ++ [mkSubmitEntry exOkInfo] ∧
      ∃ c, (mkSubmitEntry exOkInfo).submit.cmdList = some c ∧
        c.submitResult = VkResult.VK_SUCCESS) ∧
    finishSafe (submitterStep cfg0 okPendingState).1 ∧
    finishSafe (submit exOkInfo initialState).1 ∧
    finishSafe (present { presenter := some pres, frameId := 0 } none initialState).1 ∧
    finisherStep finOneState ≠ none :=
  ⟨(C9_completion_only_successful_submits.1 cfg0 okPendingState
      (mkSubmitEntry exOkInfo) [] (by decide)).1 (by decide),
   C9_completion_only_successful_submits.2.1 cfg0 okPendingState (by decide),
   C9_completion_only_successful_submits.2.2.1 exOkInfo initialState (by decide),
   C9_completion_only_successful_submits.2.2.2.1 { presenter := some pres, frameId := 0 }
     none initialState (by decide),
   C9_completion_only_successful_submits.2.2.2.2 finOneState (by decide)⟩

/-- C10 (confirmed): the destructor sets `m_stopped` and notifies only
`m_appendCond` and `m_submitCond`, never `m_finishCond`; the backpressure
wait in `submit` is on `m_finishCond`; and among all operations of the queue
only a finisher iteration (which pops an entry) notifies `m_finishCond`. -/
theorem C10_destructor_signals :
    (∀ s : QueueState, (destructorRun s).1.stopped = true ∧
        (destructorRun s).2
          = [QueueEvent.notify CondVar.appendCond,
             QueueEvent.notify CondVar.submitCond] ∧
        QueueEvent.notify CondVar.finishCond ∉ (destructorRun s).2) ∧
    submitWaitCondVar = CondVar.finishCond ∧
    (∀ (info : DxvkSubmitInfo) (s : QueueState),
        QueueEvent.notify CondVar.finishCond ∉ (submit info s).2) ∧
    (∀ (info : DxvkPresentInfo) (st : Option Nat) (s : QueueState),
        QueueEvent.notify CondVar.finishCond ∉ (present info st s).2) ∧
    (∀ (cfg : DeviceConfig) (s : QueueState),
        QueueEvent.notify CondVar.finishCond ∉ (submitterStep cfg s).2) ∧
    (∀ (s : QueueState) entry rest, s.finishQueue = entry :: rest →
        ∀ r, finisherStep s = some r →
        QueueEvent.notify CondVar.finishCond ∈ r.2) := by
  refine ⟨?_, rfl, ?_, ?_, ?_, ?_⟩
  · intro s
    exact ⟨rfl, rfl, by simp [destructorRun]⟩
  · intro info s
    simp [submit]
  · intro info st s
    simp [present]
  · intro cfg s hmem
    cases hq : s.submitQueue with
    | nil => simp [submitterStep, hq] at hmem
    | cons entry rest =>
      rw [submitterStep_decompose cfg s entry rest hq] at hmem
      simp only [List.mem_append] at hmem
      rcases hmem with (h1 | h2) | h3
      · exact absurd (dispatch_events cfg s.lastError entry _ h1) (by decide)
      · obtain ⟨slot, h⟩ := statusEvents_forms entry _ _ h2
        simp at h
      · rcases completeEntry_events cfg _ entry s _ h3 with ⟨x, h⟩ | h | h | h <;>
          simp at h
  · intro s entry rest hq r hr
    unfold finisherStep at hr
    rw [hq] at hr
    cases hcl : entry.submit.cmdList with
    | none => simp [hcl] at hr
    | some c =>
      simp only [hcl] at hr
      simp at hr
      subst hr
      simp

theorem C10_witness :
    QueueEvent.notify CondVar.finishCond
      ∈ ((finisherStep finOneState).getD (initialState, [])).2 :=
  C10_destructor_signals.2.2.2.2.2 finOneState (mkSubmitEntry exOkInfo) [] (by decide)
    ((finisherStep finOneState).getD (initialState, [])) (by decide)

end DxvkQueue
